import Mathlib

/-!
# Verification of the PMJSON version-metadata header

The repository source (`Sources/PMJSON.h`) is a C header that declares two
build-stamped constants:

  * `PMJSONVersionNumber : double` — the numeric project version;
  * `PMJSONVersionString : const unsigned char []` — the human-readable,
    NUL-terminated version string;

guarded by a helper macro `PMJSON_EXTERN` that expands to the C++ construct
wrapping the declarations in C linkage when compiled as C++, and to a plain
storage-class specifier when compiled as C.  The macro is removed again with
`#undef` at the end of the header.

Two layers are embedded below:

1. a runtime model of the version-metadata exposure unit (the build stamp,
   the built artifact, and the read accessors).  The accessor behaviour is
   modelled from the spec, since the source contains only the declarations
   of the two symbols, not their build-generated definitions;
2. a model of the header itself as seen by the C preprocessor and the
   C/C++ linkage rules (compilation mode, the helper macro, the emitted
   declarations), taken directly from the source text.

Floating-point arithmetic never occurs: the version number is only stamped
and read back, so it is modelled as an exact rational value.
-/

namespace PMJSON

/-! ## Runtime model: the version-metadata exposure unit -/

/-- Modelled from the spec: the values the build process stamps into an
artifact (src contains only the declarations of the stamped symbols).
`number` is the float64 version number, modelled as an exact rational since
no arithmetic is ever performed on it; `stringBytes` is the human-readable
version string as raw bytes, without the terminating sentinel (the build
appends it). -/
structure BuildStamp where
  number : ℚ
  stringBytes : List ℕ
deriving DecidableEq

/-- Modelled from the spec: a built artifact's VersionInfo entity.
`versionNumber` embeds the compiled-in constant `PMJSONVersionNumber`;
`versionString` embeds the compiled-in constant `PMJSONVersionString`,
a byte array including its terminating sentinel. -/
structure Artifact where
  versionNumber : ℚ
  versionString : List ℕ
deriving DecidableEq

/-- Modelled from the spec: the build process populates the artifact's
constants from the stamp, appending the sentinel byte `0` to the string
("terminated by a sentinel value, also fixed at build time"). -/
def build (s : BuildStamp) : Artifact :=
  ⟨s.number, s.stringBytes ++ [0]⟩

/-- Modelled from the spec: `getVersionNumber() -> float64` reads the
compiled-in constant `PMJSONVersionNumber` of the artifact. -/
def getVersionNumber (a : Artifact) : ℚ :=
  a.versionNumber

/-- Modelled from the spec: `getVersionString() -> byte sequence` reads the
compiled-in constant `PMJSONVersionString` of the artifact. -/
def getVersionString (a : Artifact) : List ℕ :=
  a.versionString

/-- The bytes a consumer observes when reading the version string up to (not
including) its terminating sentinel. -/
def observedString (a : Artifact) : List ℕ :=
  a.versionString.takeWhile (fun b => b ≠ 0)

/-- The operations available to a runtime consumer of the module: reading
the version number or the version string.  No other operation on the
VersionInfo state exists. -/
inductive Op where
  | getNumber
  | getString
deriving DecidableEq

/-- A value returned by a read operation. -/
inductive Value where
  | num (q : ℚ)
  | str (bs : List ℕ)
deriving DecidableEq

/-- Modelled from the spec: one runtime call.  Each accessor returns the
corresponding compiled-in constant together with the (unchanged) artifact
state; there is no failure outcome and no mutation. -/
def step (a : Artifact) : Op → Value × Artifact
  | .getNumber => (.num (getVersionNumber a), a)
  | .getString => (.str (getVersionString a), a)

/-- Run a sequence of consumer calls, threading the artifact state and
collecting the returned values. -/
def run (a : Artifact) : List Op → List Value × Artifact
  | [] => ([], a)
  | op :: ops =>
    let r := step a op
    let rest := run r.2 ops
    (r.1 :: rest.1, rest.2)

/-- A concurrent schedule entry: which thread issues which call. -/
abbrev SchedEntry := ℕ × Op

/-- Run an interleaved schedule of calls from several threads, tagging each
returned value with the issuing thread. -/
def runSched (a : Artifact) : List SchedEntry → List (ℕ × Value) × Artifact
  | [] => ([], a)
  | e :: es =>
    let r := step a e.2
    let rest := runSched r.2 es
    ((e.1, r.1) :: rest.1, rest.2)

/-- The calls thread `t` issues within a schedule, in program order. -/
def threadOps (sched : List SchedEntry) (t : ℕ) : List Op :=
  (sched.filter (fun e => e.1 == t)).map (fun e => e.2)

/-- The values thread `t` observes within the results of a schedule. -/
def threadResults (rs : List (ℕ × Value)) (t : ℕ) : List Value :=
  (rs.filter (fun r => r.1 == t)).map (fun r => r.2)

/-- Scan a byte array for its first sentinel byte `0`, as a consumer reading
a C string does; returns the index of the terminator when one exists. -/
def cStrScan : List ℕ → Option ℕ
  | [] => none
  | b :: bs => if b = 0 then some 0 else (cStrScan bs).map (fun n => n + 1)

/-- The concrete scenario stamp of the spec: version string "1.0.0"
(bytes 49 46 48 46 48) and numeric identifier 1.0. -/
def stamp100 : BuildStamp :=
  ⟨1, [49, 46, 48, 46, 48]⟩

/-! ## Header model: compilation modes, the helper macro, declarations

This layer is taken directly from the source text of `Sources/PMJSON.h`. -/

/-- The language the translation unit including the header is compiled as:
C++ (`__cplusplus` defined) or C. -/
inductive Lang where
  | c
  | cpp
deriving DecidableEq

/-- The linkage specifier a declaration in the header is written with:
`cWrapped` is the C++ form giving the declaration C language linkage;
`plain` is the bare specifier used when compiling as C. -/
inductive LinkSpec where
  | cWrapped
  | plain
deriving DecidableEq

/-- The body the header's conditional gives the helper macro `PMJSON_EXTERN`
(header lines 15–19): the C-linkage wrapper under C++, the plain specifier
under C. -/
def helperBody : Lang → LinkSpec
  | .cpp => .cWrapped
  | .c => .plain

/-- The names of the two symbols the header declares:
`PMJSONVersionNumber` and `PMJSONVersionString`. -/
inductive SymbolName where
  | versionNumberSymbol
  | versionStringSymbol
deriving DecidableEq

/-- The C types of the two declarations: `double` and
`const unsigned char []`. -/
inductive CType where
  | cDouble
  | constUCharArray
deriving DecidableEq

/-- A declaration emitted by the header: a symbol name, its type, and the
linkage specifier it was written with. -/
structure Decl where
  name : SymbolName
  type : CType
  spec : LinkSpec
deriving DecidableEq

/-- The two declarations the header emits (lines 21–25), with the helper
macro expanded for the given compilation mode. -/
def headerDecls (l : Lang) : List Decl :=
  [ ⟨.versionNumberSymbol, .cDouble, helperBody l⟩,
    ⟨.versionStringSymbol, .constUCharArray, helperBody l⟩ ]

/-- Whether a declaration written with the given specifier, in a translation
unit compiled as the given language, names a symbol with C language linkage:
in C every such declaration has C linkage; in C++ only the wrapped form
does. -/
def hasCLinkage : Lang → LinkSpec → Bool
  | .c, _ => true
  | .cpp, .cWrapped => true
  | .cpp, .plain => false

/-- The preprocessor state the header can affect: whether the helper macro
`PMJSON_EXTERN` is currently defined, and with which body.  The header
touches no other macro. -/
abbrev MacroEnv := Option LinkSpec

/-- A `#define` of the helper macro: defining a fresh macro succeeds;
redefining with an identical body is legal and a no-op; redefining with a
different body is a constraint violation. -/
def defineHelper (env : MacroEnv) (b : LinkSpec) : Except Unit MacroEnv :=
  match env with
  | none => .ok (some b)
  | some b' => if b' = b then .ok (some b) else .error ()

/-- The `#undef` of the helper macro at the end of the header. -/
def undefHelper (_ : MacroEnv) : MacroEnv := none

/-- Preprocess one inclusion of the header: conditionally `#define` the
helper macro, emit the two declarations with the macro expanded, then
`#undef` the macro (header lines 15–27). -/
def includeHeader (l : Lang) (env : MacroEnv) : Except Unit (MacroEnv × List Decl) :=
  match defineHelper env (helperBody l) with
  | .error e => .error e
  | .ok env₁ => .ok (undefHelper env₁, headerDecls l)

/-- Preprocess `n` successive inclusions of the header, accumulating the
emitted declarations. -/
def includeHeaderN (l : Lang) : ℕ → MacroEnv → Except Unit (MacroEnv × List Decl)
  | 0, env => .ok (env, [])
  | n + 1, env =>
    match includeHeader l env with
    | .error e => .error e
    | .ok r =>
      match includeHeaderN l n r.1 with
      | .error e => .error e
      | .ok r₂ => .ok (r₂.1, r.2 ++ r₂.2)

/-- Two external declarations of the same name are compatible (a legal
redeclaration) when they agree on the type. -/
def declCompatible (d₁ d₂ : Decl) : Prop :=
  d₁.name = d₂.name → d₁.type = d₂.type

instance (d₁ d₂ : Decl) : Decidable (declCompatible d₁ d₂) := by
  unfold declCompatible; infer_instance

/-! ## Shared lemmas about the runtime model -/

/-- A single read never changes the artifact state. -/
theorem step_snd (a : Artifact) (op : Op) : (step a op).2 = a := by
  cases op <;> rfl

/-- A run of reads never changes the artifact state. -/
theorem run_snd (ops : List Op) (a : Artifact) : (run a ops).2 = a := by
  induction ops generalizing a with
  | nil => rfl
  | cons op ops ih =>
    show (run (step a op).2 ops).2 = a
    rw [step_snd, ih]

/-- The values a run of reads returns are each a pure function of the
initial artifact state. -/
theorem run_fst (ops : List Op) (a : Artifact) :
    (run a ops).1 = ops.map (fun op => (step a op).1) := by
  induction ops generalizing a with
  | nil => rfl
  | cons op ops ih =>
    show (step a op).1 :: (run (step a op).2 ops).1 = _
    rw [step_snd, ih, List.map]

/-- An interleaved schedule of reads never changes the artifact state. -/
theorem runSched_snd (sched : List SchedEntry) (a : Artifact) :
    (runSched a sched).2 = a := by
  induction sched generalizing a with
  | nil => rfl
  | cons e es ih =>
    show (runSched (step a e.2).2 es).2 = a
    rw [step_snd, ih]

/-- Each result in an interleaved schedule is a pure function of the
initial artifact state, tagged with the issuing thread. -/
theorem runSched_fst (sched : List SchedEntry) (a : Artifact) :
    (runSched a sched).1 = sched.map (fun e => (e.1, (step a e.2).1)) := by
  induction sched generalizing a with
  | nil => rfl
  | cons e es ih =>
    show (e.1, (step a e.2).1) :: (runSched (step a e.2).2 es).1 = _
    rw [step_snd, ih, List.map]

/-- Scanning any byte array that ends in the sentinel `0` finds a sentinel
at an in-bounds index. -/
theorem cStrScan_append_zero (bs : List ℕ) :
    ∃ n, cStrScan (bs ++ [0]) = some n ∧ n < (bs ++ [0]).length ∧
      (bs ++ [0]).getD n 1 = 0 := by
  induction bs with
  | nil => exact ⟨0, rfl, Nat.zero_lt_one, rfl⟩
  | cons b bs ih =>
    rcases ih with ⟨n, hscan, hlt, hget⟩
    by_cases hb : b = 0
    · exact ⟨0, by simp [cStrScan, hb], by simp, by simp [hb, List.getD]⟩
    · refine ⟨n + 1, ?_, ?_, ?_⟩
      · simp [cStrScan, hb, hscan]
      · simpa using Nat.succ_lt_succ hlt
      · simpa using hget

/-! ## Claim theorems -/

/-- Claim C1: every call to the accessors returns the build-assigned constant
(`getVersionNumber` the stamped number, `getVersionString` the stamped
string with its sentinel), and each call has no side effects: the returned
values equal the artifact's compiled-in constants and the artifact state is
unchanged by the call. -/
theorem accessors_return_build_constants (s : BuildStamp) (a : Artifact) :
    getVersionNumber (build s) = s.number ∧
    getVersionString (build s) = s.stringBytes ++ [0] ∧
    step a .getNumber = (.num a.versionNumber, a) ∧
    step a .getString = (.str a.versionString, a) :=
  ⟨rfl, rfl, rfl, rfl⟩

/-- Claim C2: the VersionInfo fields are write-once and read-only: the only
operations available to a runtime consumer are the two reads, and after any
sequence of them both the version number and the version string of the
artifact are unchanged. -/
theorem versionInfo_read_only (a : Artifact) (ops : List Op) :
    (run a ops).2 = a ∧
    ((run a ops).2).versionNumber = a.versionNumber ∧
    ((run a ops).2).versionString = a.versionString := by
  refine ⟨run_snd ops a, ?_, ?_⟩ <;> rw [run_snd]

/-- Claim C3: the accessors are deterministic and idempotent within one built
artifact: a call made after any history of prior calls returns the same
value as the same call after any other history, so any two reads of the
number agree and any two reads of the string agree. -/
theorem reads_deterministic (a : Artifact) (hist₁ hist₂ : List Op) (op : Op) :
    (step (run a hist₁).2 op).1 = (step (run a hist₂).2 op).1 := by
  rw [run_snd, run_snd]

/-- Claim C4: the version string of any built artifact is a well-formed
terminated byte sequence: scanning for the sentinel succeeds at an index
strictly inside the array, and the byte there is the sentinel `0`. -/
theorem versionString_terminated (s : BuildStamp) :
    ∃ n, cStrScan (build s).versionString = some n ∧
      n < (build s).versionString.length ∧
      (build s).versionString.getD n 1 = 0 :=
  cStrScan_append_zero s.stringBytes

/-- Claim C5: neither accessor can fail: running any sequence of calls yields
exactly one value per call (no call is skipped or errors out), and each
single call is a total function producing a value and a successor state. -/
theorem accessors_total (a : Artifact) (ops : List Op) :
    (run a ops).1.length = ops.length ∧
    ∀ op : Op, ∃ (v : Value) (a' : Artifact), step a op = (v, a') := by
  constructor
  · rw [run_fst, List.length_map]
  · intro op; exact ⟨(step a op).1, (step a op).2, rfl⟩

/-- Claim C6: for the artifact stamped with version string "1.0.0" (bytes
49 46 48 46 48) and numeric identifier 1.0, every read in any sequence of
calls returns exactly the stamped values: each number read yields `1`, each
string read yields the stamped bytes with their sentinel, and the observed
string (up to the sentinel) is exactly "1.0.0". -/
theorem concrete_scenario_one_zero_zero (ops : List Op) :
    (run (build stamp100) ops).1 =
      ops.map (fun op => match op with
        | .getNumber => .num 1
        | .getString => .str [49, 46, 48, 46, 48, 0]) ∧
    observedString (build stamp100) = [49, 46, 48, 46, 48] := by
  constructor
  · rw [run_fst]
    refine List.map_congr_left ?_
    intro op _
    cases op <;> rfl
  · rfl

/-- Claim C7: no cross-contamination between builds: each artifact exposes
exactly the values of its own stamp, so two builds with different stamped
numbers and strings expose different values and neither ever exposes the
other's. -/
theorem builds_no_cross_contamination (s₁ s₂ : BuildStamp)
    (hn : s₁.number ≠ s₂.number) (hs : s₁.stringBytes ≠ s₂.stringBytes) :
    getVersionNumber (build s₁) = s₁.number ∧
    getVersionString (build s₁) = s₁.stringBytes ++ [0] ∧
    getVersionNumber (build s₁) ≠ getVersionNumber (build s₂) ∧
    getVersionString (build s₁) ≠ getVersionString (build s₂) := by
  refine ⟨rfl, rfl, hn, ?_⟩
  intro h
  exact hs (List.append_cancel_right h)

/-- Witness for C7 at the concrete stamps (1, "1.0.0") and (2, "2"). -/
theorem builds_no_cross_contamination_witness :
    getVersionNumber (build stamp100) ≠ getVersionNumber (build ⟨2, [50]⟩) ∧
    getVersionString (build stamp100) ≠ getVersionString (build ⟨2, [50]⟩) := by
  have h := builds_no_cross_contamination stamp100 ⟨2, [50]⟩ (by decide) (by decide)
  exact ⟨h.2.2.1, h.2.2.2⟩

/-- Claim C8: reads from any number of threads are safe with no synchronisation:
under any interleaved schedule of reads the artifact state never changes
(no writer executes), and the values each thread observes are exactly the
values it would observe running its own calls alone; each call is a single
total step, so nothing suspends, blocks or is cancelled. -/
theorem concurrent_reads_safe (a : Artifact) (sched : List SchedEntry) (t : ℕ) :
    (runSched a sched).2 = a ∧
    threadResults (runSched a sched).1 t = (run a (threadOps sched t)).1 := by
  refine ⟨runSched_snd sched a, ?_⟩
  rw [runSched_fst, run_fst]
  simp only [threadResults, threadOps]
  induction sched with
  | nil => rfl
  | cons e es ih =>
    simp only [List.map_cons, List.filter_cons]
    cases he : (e.1 == t) with
    | false => simpa [he] using ih
    | true => simpa [he] using ih

/-- Claim C9: the header declares the identical external interface under C and
C++ compilation: both modes emit the same two symbols with the same types,
every declaration carries C language linkage in its mode, and the helper
macro expands to the C-linkage wrapper under C++ and to the plain specifier
under C. -/
theorem header_interface_equivalent (l₁ l₂ : Lang) :
    (headerDecls l₁).map (fun d => (d.name, d.type)) =
      (headerDecls l₂).map (fun d => (d.name, d.type)) ∧
    (headerDecls l₁).all (fun d => hasCLinkage l₁ d.spec) = true ∧
    helperBody .cpp = .cWrapped ∧ helperBody .c = .plain := by
  cases l₁ <;> cases l₂ <;> exact ⟨rfl, rfl, rfl, rfl⟩

/-- Claim C10: including the header any number of times from a state in which the
helper macro is undefined succeeds, leaves the preprocessor state unchanged
(the helper macro is removed again by the `#undef`, so no macro defined by
the header remains), and emits only repeated mutually compatible external
declarations of the same two symbols — no redefinition conflict. -/
theorem header_inclusion_idempotent (l : Lang) (n : ℕ) :
    includeHeaderN l n none =
      .ok ((none : MacroEnv), (List.replicate n (headerDecls l)).flatten) ∧
    List.Pairwise declCompatible ((List.replicate n (headerDecls l)).flatten) := by
  constructor
  · induction n with
    | zero => rfl
    | succ n ih =>
      have hstep : includeHeaderN l (n + 1) none =
          match includeHeaderN l n none with
          | Except.error e => (Except.error e : Except Unit (MacroEnv × List Decl))
          | Except.ok r₂ => Except.ok (r₂.1, headerDecls l ++ r₂.2) := rfl
      rw [hstep, ih]
      simp [List.replicate_succ]
  · have mem_decls : ∀ d, d ∈ (List.replicate n (headerDecls l)).flatten →
        d ∈ headerDecls l := by
      intro d hd
      rcases List.mem_flatten.1 hd with ⟨L, hL, hdL⟩
      rwa [List.eq_of_mem_replicate hL] at hdL
    refine List.pairwise_of_forall_mem_list ?_
    intro d₁ h₁ d₂ h₂
    have m₁ := mem_decls d₁ h₁
    have m₂ := mem_decls d₂ h₂
    simp only [headerDecls, List.mem_cons, List.mem_singleton,
      List.not_mem_nil, or_false] at m₁ m₂
    rcases m₁ with rfl | rfl <;> rcases m₂ with rfl | rfl <;>
      first
        | (intro _; rfl)
        | (intro h; cases h)

end PMJSON
